import Mathlib

/-!
Verification of the logical content of `etl.py`, a two-stage Spark ETL job
(Catalog Extractor / Event Extractor) that derives a star schema
(songs, artists, users, time, songplays) from JSON catalog and log records.

The dataframe engine is modelled shallowly: a dataframe is a schema (ordered
column names) plus a list of rows, each row an association list from column
name to a JSON-ish value.  Spark operations used by the source
(`select`-style projection, `dropDuplicates`, `withColumn` with a scalar udf,
inner `join`, `write.partitionBy(...).parquet(path, 'overwrite')`) are given
as list-level definitions.  `dropDuplicates` keeps one arbitrary surviving
row per key group; the model fixes the engine's choice as the first
occurrence, which is one legitimate instance of the unspecified choice.
-/

set_option autoImplicit false

namespace Etl

/-- A value carried through the dataframe engine.  JSON strings, integers
(Spark longs) and floating-point numbers are carried opaquely; `null` stands
for SQL NULL (and for a missing column on lookup). -/
inductive Value where
  | null : Value
  | str : String → Value
  | int : Int → Value
  | num : Rat → Value
deriving DecidableEq, Repr

/-- A row: an ordered association list from column name to value. -/
abbrev Row := List (String × Value)

/-- Column lookup in a row; missing columns read as `null`. -/
def getVal : Row → String → Value
  | [], _ => .null
  | (c, v) :: r, c' => if c = c' then v else getVal r c'

/-- A dataframe: a static schema (Spark tracks it even for zero rows) plus
the row list. -/
structure DataFrame where
  schema : List String
  rows : List Row
deriving DecidableEq, Repr

/-- Projection of a row onto a column list (`df['a', 'b', ...]`). -/
def projRow (cols : List String) (r : Row) : Row :=
  cols.map (fun c => (c, getVal r c))

/-- `df.select(cols)` / `df['c1', ..., 'cn']`. -/
def selectCols (cols : List String) (df : DataFrame) : DataFrame :=
  ⟨cols, df.rows.map (projRow cols)⟩

/-- `df.withColumn(name, udf(col))`: adds a computed column, replacing an
existing column of the same name. -/
def withColumn (name : String) (f : Row → Value) (df : DataFrame) : DataFrame :=
  ⟨df.schema.filter (fun c => c != name) ++ [name],
   df.rows.map (fun r => r.filter (fun p => p.1 != name) ++ [(name, f r)])⟩

/-- First-occurrence deduplication by a key function; `seen` accumulates the
keys already emitted. -/
def dedupByAux {α κ : Type} [DecidableEq κ] (f : α → κ) : List κ → List α → List α
  | _, [] => []
  | seen, x :: xs =>
    if f x ∈ seen then dedupByAux f seen xs
    else x :: dedupByAux f (f x :: seen) xs

/-- Keep one row (the first) per key group. -/
def dedupBy {α κ : Type} [DecidableEq κ] (f : α → κ) (xs : List α) : List α :=
  dedupByAux f [] xs

/-- The key of a row for `df.dropDuplicates(keys)`: the tuple of its key
column values. -/
def rowKey (keys : List String) (r : Row) : List Value :=
  keys.map (getVal r)

/-- `df.dropDuplicates(keys)`: one surviving row per distinct key tuple. -/
def dropDuplicates (keys : List String) (df : DataFrame) : DataFrame :=
  ⟨df.schema, dedupBy (rowKey keys) df.rows⟩

/-- SQL equality used by the join condition: NULL compares false to
everything (including NULL). -/
def sqlEq (a b : Value) : Bool :=
  match a, b with
  | .null, _ => false
  | _, .null => false
  | a, b => decide (a = b)

/-- `df.join(song_df, song_df.title == df.song)`: an inner join; the result
row is the log row extended with the matching catalog row. -/
def joinOn (df song_df : DataFrame) : DataFrame :=
  ⟨df.schema ++ song_df.schema,
   df.rows.flatMap (fun lr =>
     (song_df.rows.filter (fun sr => sqlEq (getVal sr "title") (getVal lr "song"))).map
       (fun sr => lr ++ sr))⟩

/-! ### The derived tables of `process_song_data` and `process_log_data` -/

/-- `songs_table = df['song_id','title','artist_id','year','duration'].dropDuplicates(['song_id'])`. -/
def songs_table (df : DataFrame) : DataFrame :=
  dropDuplicates ["song_id"]
    (selectCols ["song_id", "title", "artist_id", "year", "duration"] df)

/-- `artists_table = df['artist_id','artist_name','artist_location','artist_latitude','artist_longitude'].dropDuplicates(['artist_id'])`. -/
def artists_table (df : DataFrame) : DataFrame :=
  dropDuplicates ["artist_id"]
    (selectCols ["artist_id", "artist_name", "artist_location",
                 "artist_latitude", "artist_longitude"] df)

/-- `users_table = df['userId','firstName','lastName','gender','level'].dropDuplicates(['userId'])`. -/
def users_table (df : DataFrame) : DataFrame :=
  dropDuplicates ["userId"]
    (selectCols ["userId", "firstName", "lastName", "gender", "level"] df)

/-! ### Python float division, modelled exactly

`get_timestamp = udf(lambda x: str(int(int(x) / 1000)))` divides a Python
int by 1000 with `/`, which produces the IEEE-754 binary64 double nearest to
the exact quotient (round to nearest, ties to even), and `int(...)`
truncates it.  The double nearest to `a / b` is `n / 2^j` where
`j = 52 - floor(log2 (a/b))` and `n` is the nearest (ties-to-even) integer
to `a * 2^j / b`.  Everything is kept in integer arithmetic. -/

/-- Smallest `k` with `a < b * 2^k` (with enough fuel). -/
def expAbove (a : ℕ) : ℕ → ℕ → ℕ
  | _, 0 => 0
  | b, fuel+1 => if a < b then 0 else expAbove a (2*b) fuel + 1

/-- Smallest `j` with `b ≤ a * 2^j` (with enough fuel). -/
def expUpto (b : ℕ) : ℕ → ℕ → ℕ
  | _, 0 => 0
  | a, fuel+1 => if b ≤ a then 0 else expUpto b (2*a) fuel + 1

/-- Nearest integer to `x / b`, ties to even. -/
def rnteDiv (x b : ℕ) : ℕ :=
  let q := x / b
  let r := x % b
  if 2 * r < b then q
  else if b < 2 * r then q + 1
  else if q % 2 = 0 then q else q + 1

/-- The binary scale of the double nearest `a / b` (for `a, b > 0`):
the double is `n / 2^j` with `j = 52 - floor(log2 (a/b))`. -/
def pyDivShift (a b : ℕ) : ℤ :=
  if a < b then (52 : ℤ) + expUpto b a (b+1)
  else 53 - expAbove a b (a+1)

/-- The IEEE binary64 double nearest to `a / b` (round to nearest, ties to
even), as an exact pair `(n, j)` with value `n / 2^j`.  This models Python 3
true division of non-negative ints (CPython computes the correctly rounded
quotient). -/
def pyDiv (a b : ℕ) : ℕ × ℕ :=
  if a = 0 then (0, 0)
  else
    let j := pyDivShift a b
    if 0 ≤ j then (rnteDiv (a * 2^j.toNat) b, j.toNat)
    else (rnteDiv a (b * 2^(-j).toNat) * 2^(-j).toNat, 0)

/-- `int(...)` applied to the double `a / b` (both non-negative): the floor
of the rounded quotient. -/
def pyIntDivFloat (a b : ℕ) : ℕ :=
  (pyDiv a b).1 / 2^(pyDiv a b).2

/-- Numeric core of the udf `get_timestamp = udf(lambda x: str(int(int(x) / 1000)))`
(the udf stringifies this value). -/
def get_timestamp_val (ts : ℕ) : ℕ := pyIntDivFloat ts 1000

/-! ### `datetime.fromtimestamp(int(x) / 1000.0)` and `str(datetime)`

`get_datetime = udf(lambda x: str(datetime.fromtimestamp(int(x) / 1000.0)))`.
For `x < 2^53` the conversion of `int(x)` to double is exact, so
`int(x) / 1000.0` is again the correctly rounded double quotient `pyDiv`.
`datetime.fromtimestamp` splits that double into whole seconds and a
microsecond part (CPython rounds the fraction to microseconds with
round-half-even, carrying into the seconds on overflow), then converts the
local-time seconds (process timezone modelled as a fixed offset `tz` in
seconds) to a civil date with the standard era-based algorithm used by C
localtime implementations. -/

/-- Whole seconds and microseconds of the double `ts / 1000.0`. -/
def pyTimestampParts (ts : ℕ) : ℕ × ℕ :=
  let nk := pyDiv ts 1000
  let s := nk.1 / 2^nk.2
  let rem := nk.1 % 2^nk.2
  let us := rnteDiv (rem * 1000000) (2^nk.2)
  if us = 1000000 then (s + 1, 0) else (s, us)

/-- A Python `datetime` value (naive, microsecond precision). -/
structure PyDatetime where
  year : ℕ
  month : ℕ
  day : ℕ
  hour : ℕ
  minute : ℕ
  second : ℕ
  micros : ℕ
deriving DecidableEq, Repr

/-- Civil date from a day count whose origin is 0000-03-01 (era-based
Gregorian conversion; `z = 719468` is 1970-01-01). -/
def civilFromDays (z : ℕ) : ℕ × ℕ × ℕ :=
  let era := z / 146097
  let doe := z % 146097
  let yoe := (doe - doe/1460 + doe/36524 - doe/146096) / 365
  let doy := doe - (365*yoe + yoe/4 - yoe/100)
  let mp := (5*doy + 2)/153
  let d := doy - (153*mp + 2)/5 + 1
  let m := if mp < 10 then mp + 3 else mp - 9
  let y := era * 400 + yoe + (if m ≤ 2 then 1 else 0)
  (y, m, d)

/-- `datetime.fromtimestamp(ts / 1000.0)` under a fixed local-timezone
offset of `tz` seconds. -/
def pyDatetime (tz : ℤ) (ts : ℕ) : PyDatetime :=
  let p := pyTimestampParts ts
  let localSec : ℤ := (p.1 : ℤ) + tz
  let days : ℤ := localSec / 86400
  let sod : ℕ := (localSec % 86400).toNat
  let z : ℕ := (days + 719468).toNat
  let c := civilFromDays z
  ⟨c.1, c.2.1, c.2.2, sod / 3600, (sod % 3600) / 60, sod % 60, p.2⟩

/-- The two decimal digits of `n < 100`, zero padded. -/
def twoDigits (n : ℕ) : List Char :=
  [Char.ofNat (48 + n / 10), Char.ofNat (48 + n % 10)]

/-- The four decimal digits of `n < 10000`, zero padded. -/
def fourDigits (n : ℕ) : List Char :=
  twoDigits (n / 100) ++ twoDigits (n % 100)

/-- The six decimal digits of `n < 1000000`, zero padded. -/
def sixDigits (n : ℕ) : List Char :=
  twoDigits (n / 10000) ++ twoDigits ((n / 100) % 100) ++ twoDigits (n % 100)

/-- `str(datetime)`: `YYYY-MM-DD HH:MM:SS` with a `.ffffff` suffix exactly
when the microsecond part is nonzero. -/
def renderDT (d : PyDatetime) : String :=
  String.mk (fourDigits d.year ++ '-' :: twoDigits d.month ++ '-' ::
    twoDigits d.day ++ ' ' :: twoDigits d.hour ++ ':' :: twoDigits d.minute ++
    ':' :: twoDigits d.second ++
    (if d.micros = 0 then [] else '.' :: sixDigits d.micros))

/-- Decimal value of a digit character. -/
def digitVal (c : Char) : Option ℕ :=
  if 48 ≤ c.toNat ∧ c.toNat ≤ 57 then some (c.toNat - 48) else none

/-- Two-digit decimal field. -/
def dec2 (a b : Char) : Option ℕ := do
  let x ← digitVal a
  let y ← digitVal b
  pure (10 * x + y)

/-- Range validation performed by the timestamp cast (the shapes relevant
here; a rendered `datetime` always satisfies them). -/
def mkValidDT (y mo dy hh mi ss us : ℕ) : Option PyDatetime :=
  if 1 ≤ y ∧ 1 ≤ mo ∧ mo ≤ 12 ∧ 1 ≤ dy ∧ dy ≤ 31 ∧ hh ≤ 23 ∧ mi ≤ 59 ∧
      ss ≤ 59 ∧ us ≤ 999999 then
    some ⟨y, mo, dy, hh, mi, ss, us⟩
  else none

/-- Timestamp parse of `YYYY-MM-DD HH:MM:SS[.ffffff]`, as performed by the
engine when a date/time field is extracted from a string column. -/
def parseChars : List Char → Option PyDatetime
  | [y1, y2, y3, y4, '-', o1, o2, '-', d1, d2, ' ',
     h1, h2, ':', i1, i2, ':', s1, s2] => do
    let yh ← dec2 y1 y2
    let yl ← dec2 y3 y4
    let mo ← dec2 o1 o2
    let dy ← dec2 d1 d2
    let hh ← dec2 h1 h2
    let mi ← dec2 i1 i2
    let ss ← dec2 s1 s2
    mkValidDT (100 * yh + yl) mo dy hh mi ss 0
  | [y1, y2, y3, y4, '-', o1, o2, '-', d1, d2, ' ',
     h1, h2, ':', i1, i2, ':', s1, s2, '.', u1, u2, u3, u4, u5, u6] => do
    let yh ← dec2 y1 y2
    let yl ← dec2 y3 y4
    let mo ← dec2 o1 o2
    let dy ← dec2 d1 d2
    let hh ← dec2 h1 h2
    let mi ← dec2 i1 i2
    let ss ← dec2 s1 s2
    let uh ← dec2 u1 u2
    let um ← dec2 u3 u4
    let ul ← dec2 u5 u6
    mkValidDT (100 * yh + yl) mo dy hh mi ss (10000 * uh + 100 * um + ul)
  | _ => none

/-- Parse of a string column value as a timestamp. -/
def parseDT (s : String) : Option PyDatetime := parseChars s.data

/-- Day count since 1970-01-01 of a civil date (inverse era-based formula;
used for weekday and ISO week computations, valid for `y ≥ 1`). -/
def daysFromCivil (y m d : ℕ) : ℤ :=
  let yAdj : ℤ := (y : ℤ) - (if m ≤ 2 then 1 else 0)
  let era : ℤ := yAdj / 400
  let yoe : ℤ := yAdj - era * 400
  let mp : ℤ := ((m : ℤ) + 9) % 12
  let doy : ℤ := (153 * mp + 2) / 5 + d - 1
  let doe : ℤ := yoe * 365 + yoe / 4 - yoe / 100 + doy
  era * 146097 + doe - 719468

/-- ISO weekday, Monday = 1 .. Sunday = 7 (1970-01-01 was a Thursday). -/
def isoWeekday (y m d : ℕ) : ℤ :=
  (daysFromCivil y m d + 3) % 7 + 1

/-- Weekday-anchor residue used by the ISO ism for 53-week years. -/
def isoYearResidue (y : ℕ) : ℤ :=
  ((y : ℤ) + (y : ℤ) / 4 - (y : ℤ) / 100 + (y : ℤ) / 400) % 7

/-- Number of ISO weeks (52 or 53) in year `y`. -/
def isoWeeksInYear (y : ℕ) : ℤ :=
  if isoYearResidue y = 4 ∨ isoYearResidue (y - 1) = 3 then 53 else 52

/-- ISO-8601 week-of-year, as computed by the engine's `weekofyear`. -/
def isoWeek (y m d : ℕ) : ℤ :=
  let doy : ℤ := daysFromCivil y m d - daysFromCivil y 1 1 + 1
  let w : ℤ := (doy - isoWeekday y m d + 10) / 7
  if w < 1 then isoWeeksInYear (y - 1)
  else if isoWeeksInYear y < w then 1
  else w

/-! ### The Event Extractor's derived columns and tables -/

/-- The `ts` column value of a log row as a non-negative epoch-millisecond
count (the dataset's `ts` values are non-negative Spark longs). -/
def tsOfValue : Value → ℕ
  | .int n => n.toNat
  | _ => 0

/-- The full `get_timestamp` udf (it returns the decimal string). -/
def get_timestamp (ts : ℕ) : String := Nat.repr (get_timestamp_val ts)

/-- The full `get_datetime` udf. -/
def get_datetime (tz : ℤ) (ts : ℕ) : String := renderDT (pyDatetime tz ts)

/-- `df = df.withColumn('timestamp', get_timestamp(df.ts))`. -/
def log_with_timestamp (df : DataFrame) : DataFrame :=
  withColumn "timestamp" (fun r => .str (get_timestamp (tsOfValue (getVal r "ts")))) df

/-- `df = df.withColumn('datetime', get_datetime(df.ts))` (applied after the
`timestamp` column, as in the source). -/
def log_augmented (tz : ℤ) (df : DataFrame) : DataFrame :=
  withColumn "datetime" (fun r => .str (get_datetime tz (tsOfValue (getVal r "ts"))))
    (log_with_timestamp df)

/-- A date/time field extraction applied to a string column value: parse,
then extract; SQL NULL on parse failure or non-string input. -/
def sqlField (f : PyDatetime → ℤ) (v : Value) : Value :=
  match v with
  | .str s =>
    match parseDT s with
    | some d => .int (f d)
    | none => .null
  | _ => .null

/-- The time table before deduplication:
`df.select(col('datetime').alias('start_time'), hour(...), dayofmonth(...), weekofyear(...), month(...), year(...))`. -/
def time_table_raw (tz : ℤ) (df : DataFrame) : DataFrame :=
  ⟨["start_time", "hour", "day", "week", "month", "year"],
   (log_augmented tz df).rows.map (fun r =>
     let v := getVal r "datetime"
     [("start_time", v),
      ("hour", sqlField (fun d => (d.hour : ℤ)) v),
      ("day", sqlField (fun d => (d.day : ℤ)) v),
      ("week", sqlField (fun d => isoWeek d.year d.month d.day) v),
      ("month", sqlField (fun d => (d.month : ℤ)) v),
      ("year", sqlField (fun d => (d.year : ℤ)) v)])⟩

/-- `time_table = (...).dropDuplicates(['start_time'])`. -/
def time_table (tz : ℤ) (df : DataFrame) : DataFrame :=
  dropDuplicates ["start_time"] (time_table_raw tz df)

/-- `df = df.join(song_df, song_df.title == df.song)` (the log side already
carries the derived `timestamp`/`datetime` columns). -/
def songplays_joined (tz : ℤ) (logDf songDf : DataFrame) : DataFrame :=
  joinOn (log_augmented tz logDf) songDf

/-- `songplays_table = df['userId','level','song_id','artist_id','sessionId','location','userAgent']`. -/
def songplays_table (tz : ℤ) (logDf songDf : DataFrame) : DataFrame :=
  selectCols ["userId", "level", "song_id", "artist_id", "sessionId",
              "location", "userAgent"] (songplays_joined tz logDf songDf)

/-- `songplays_table.select(monotonically_increasing_id().alias('songplay_id'))`:
a one-column frame of synthetic increasing identifiers (modelled as the row
index, the engine's single-partition behaviour).  The source `.collect()`s
this and discards the result. -/
def songplay_id_select (df : DataFrame) : DataFrame :=
  ⟨["songplay_id"], (List.range df.rows.length).map (fun i => [("songplay_id", Value.int i)])⟩

/-- The dataframe that reaches the songplays write call: the id selection is
collected and dropped, leaving `songplays_table` itself. -/
def songplays_write_input (tz : ℤ) (logDf songDf : DataFrame) : DataFrame :=
  (fun _collected => songplays_table tz logDf songDf)
    (songplay_id_select (songplays_table tz logDf songDf)).rows

/-! ### Input globs, output paths and the write model -/

/-- `os.path.join` for the shapes used here (second component relative). -/
def osPathJoin (a b : String) : String :=
  if a = "" ∨ a.data.getLast? = some '/' then a ++ b else a ++ "/" ++ b

/-- Catalog glob of the Catalog Extractor: `song_data/*/*/*/*.json`. -/
def song_data_glob (input : String) : String :=
  osPathJoin input "song_data/*/*/*/*.json"

/-- Log glob of the Event Extractor: `log_data/*/*/*.json`. -/
def log_data_glob (input : String) : String :=
  osPathJoin input "log_data/*/*/*.json"

/-- Catalog glob used by the Event Extractor's songplays re-load:
`song-data/*/*/*/*.json` (note the hyphen). -/
def songplays_song_glob (input : String) : String :=
  osPathJoin input "song-data/*/*/*/*.json"

/-- Persisted object storage: a map from target path to table contents;
each write fully replaces the data at its path. -/
def Storage : Type := String → Option DataFrame

/-- Overwrite-mode write of `df` at `path`. -/
def updateStorage (st : Storage) (path : String) (df : DataFrame) : Storage :=
  fun q => if q = path then some df else st q

/-- The engine's check that every partition column exists in the schema
(`partitionBy` raises an analysis error otherwise). -/
def columnsOk (cols : List String) (df : DataFrame) : Bool :=
  cols.all (fun c => df.schema.contains c)

/-- `df.write.partitionBy(cols).parquet(path, 'overwrite')`: fails (returns
`none`) when a partition column is missing from the schema. -/
def writeParquet (st : Storage) (df : DataFrame) (partCols : List String)
    (path : String) : Option Storage :=
  if columnsOk partCols df then some (updateStorage st path df) else none

/-- Run a sequence of writes; the first failing write aborts the run,
keeping everything already written. -/
def runWrites (st : Storage) : List (DataFrame × List String × String) → Storage
  | [] => st
  | (df, cols, path) :: rest =>
    if columnsOk cols df then runWrites (updateStorage st path df) rest else st

/-- The write sequence of `main`: `process_song_data` then
`process_log_data`, reading via the engine's JSON loader `read` (a fixed
function of the glob, since inputs are identical across runs). -/
def etlWrites (read : String → DataFrame) (tz : ℤ) (input output : String) :
    List (DataFrame × List String × String) :=
  [(songs_table (read (song_data_glob input)), ["year", "artist_id"],
      osPathJoin output "songs.parquet"),
   (artists_table (read (song_data_glob input)), [],
      osPathJoin output "artists.parquet"),
   (users_table (read (log_data_glob input)), [],
      osPathJoin output "users.parquet"),
   (time_table tz (read (log_data_glob input)), ["year", "month"],
      osPathJoin output "time.parquet"),
   (songplays_write_input tz (read (log_data_glob input)) (read (songplays_song_glob input)),
      ["year", "month"], osPathJoin output "songplays.parquet")]

/-- One full pipeline run against a storage state. -/
def runEtl (read : String → DataFrame) (tz : ℤ) (input output : String)
    (st : Storage) : Storage :=
  runWrites st (etlWrites read tz input output)

/-! ### Concrete example inputs (used to instantiate proved theorems) -/

/-- A catalog record. -/
def exSongRow1 : Row :=
  [("song_id", .str "S1"), ("title", .str "Hey"), ("artist_id", .str "A1"),
   ("year", .int 1999), ("duration", .num 200), ("artist_name", .str "Ann"),
   ("artist_location", .str "NY"), ("artist_latitude", .num 1),
   ("artist_longitude", .num 2)]

/-- A second catalog record sharing `song_id` with the first. -/
def exSongRow2 : Row :=
  [("song_id", .str "S1"), ("title", .str "Hey2"), ("artist_id", .str "A1"),
   ("year", .int 2001), ("duration", .num 180), ("artist_name", .str "Ann"),
   ("artist_location", .str "NY"), ("artist_latitude", .num 1),
   ("artist_longitude", .num 2)]

/-- A catalog record with a distinct `song_id`. -/
def exSongRow3 : Row :=
  [("song_id", .str "S2"), ("title", .str "Yo"), ("artist_id", .str "A2"),
   ("year", .int 2005), ("duration", .num 150), ("artist_name", .str "Bob"),
   ("artist_location", .str "SF"), ("artist_latitude", .null),
   ("artist_longitude", .null)]

/-- A small catalog dataframe. -/
def exSongDf : DataFrame :=
  ⟨["song_id", "title", "artist_id", "year", "duration", "artist_name",
    "artist_location", "artist_latitude", "artist_longitude"],
   [exSongRow1, exSongRow2, exSongRow3]⟩

/-- A log record whose `song` matches a catalog title; its `ts` is
2018-11-02 18:38:43.796 UTC. -/
def exLogRow1 : Row :=
  [("ts", .int 1541183923796), ("userId", .str "U1"), ("firstName", .str "Jo"),
   ("lastName", .str "Doe"), ("gender", .str "F"), ("level", .str "free"),
   ("sessionId", .int 1), ("location", .str "LA"), ("userAgent", .str "UA"),
   ("song", .str "Hey"), ("page", .str "NextSong")]

/-- A log record in the same epoch second as the first but a different
millisecond (`.000`), with no matching catalog title. -/
def exLogRow2 : Row :=
  [("ts", .int 1541183923000), ("userId", .str "U2"), ("firstName", .str "Al"),
   ("lastName", .str "Poe"), ("gender", .str "M"), ("level", .str "paid"),
   ("sessionId", .int 2), ("location", .str "SF"), ("userAgent", .str "UB"),
   ("song", .str "Nope"), ("page", .str "NextSong")]

/-- A small log dataframe. -/
def exLogDf : DataFrame :=
  ⟨["ts", "userId", "firstName", "lastName", "gender", "level", "sessionId",
    "location", "userAgent", "song", "page"],
   [exLogRow1, exLogRow2]⟩

/-- A log dataframe with no song title in common with `exSongDf`. -/
def exLogDfNoMatch : DataFrame :=
  ⟨["ts", "userId", "firstName", "lastName", "gender", "level", "sessionId",
    "location", "userAgent", "song", "page"],
   [exLogRow2]⟩

/-- The songplays row produced by joining `exLogRow1` with `exSongRow1`. -/
def exSongplayRow : Row :=
  [("userId", .str "U1"), ("level", .str "free"), ("song_id", .str "S1"),
   ("artist_id", .str "A1"), ("sessionId", .int 1), ("location", .str "LA"),
   ("userAgent", .str "UA")]

/-- The time-table row derived from `exLogRow1` at offset 0. -/
def exTimeRow : Row :=
  [("start_time", .str "2018-11-02 18:38:43.796000"), ("hour", .int 18),
   ("day", .int 2), ("week", .int 44), ("month", .int 11), ("year", .int 2018)]

/-! ## Theorems -/

/-! ### General facts about first-occurrence deduplication -/

theorem mem_of_mem_dedupByAux {α κ : Type} [DecidableEq κ] (f : α → κ)
    (seen : List κ) (xs : List α) (y : α) (h : y ∈ dedupByAux f seen xs) :
    y ∈ xs := by
  induction xs generalizing seen with
  | nil => simp [dedupByAux] at h
  | cons x xs ih =>
    simp only [dedupByAux] at h
    split at h
    · exact List.mem_cons_of_mem _ (ih _ h)
    · rcases List.mem_cons.mp h with h | h
      · exact h ▸ List.mem_cons_self _ _
      · exact List.mem_cons_of_mem _ (ih _ h)

theorem map_dedupByAux_mem {α κ : Type} [DecidableEq κ] (f : α → κ)
    (seen : List κ) (xs : List α) (k : κ) :
    k ∈ (dedupByAux f seen xs).map f ↔ k ∈ xs.map f ∧ k ∉ seen := by
  induction xs generalizing seen with
  | nil => simp [dedupByAux]
  | cons x xs ih =>
    simp only [dedupByAux]
    split
    · rename_i hx
      rw [ih]
      simp only [List.map_cons, List.mem_cons]
      constructor
      · rintro ⟨h1, h2⟩; exact ⟨Or.inr h1, h2⟩
      · rintro ⟨h1 | h1, h2⟩
        · exact absurd (h1 ▸ hx) h2
        · exact ⟨h1, h2⟩
    · rename_i hx
      simp only [List.map_cons, List.mem_cons, ih, List.mem_cons, not_or]
      constructor
      · rintro (rfl | ⟨h1, _, h3⟩)
        · exact ⟨Or.inl rfl, hx⟩
        · exact ⟨Or.inr h1, h3⟩
      · rintro ⟨h1 | h1, h2⟩
        · exact Or.inl h1
        · by_cases hkx : k = f x
          · exact Or.inl hkx
          · exact Or.inr ⟨h1, hkx, h2⟩

theorem nodup_map_dedupByAux {α κ : Type} [DecidableEq κ] (f : α → κ)
    (seen : List κ) (xs : List α) :
    ((dedupByAux f seen xs).map f).Nodup := by
  induction xs generalizing seen with
  | nil => simp [dedupByAux]
  | cons x xs ih =>
    simp only [dedupByAux]
    split
    · exact ih _
    · refine List.Nodup.cons ?_ (ih _)
      intro hmem
      rw [map_dedupByAux_mem] at hmem
      exact hmem.2 (List.mem_cons_self _ _)

theorem mem_of_mem_dedupBy {α κ : Type} [DecidableEq κ] (f : α → κ)
    (xs : List α) (y : α) (h : y ∈ dedupBy f xs) : y ∈ xs :=
  mem_of_mem_dedupByAux f [] xs y h

theorem map_dedupBy_mem {α κ : Type} [DecidableEq κ] (f : α → κ)
    (xs : List α) (k : κ) : k ∈ (dedupBy f xs).map f ↔ k ∈ xs.map f := by
  rw [dedupBy, map_dedupByAux_mem]; simp

theorem nodup_map_dedupBy {α κ : Type} [DecidableEq κ] (f : α → κ)
    (xs : List α) : ((dedupBy f xs).map f).Nodup :=
  nodup_map_dedupByAux f [] xs

/-- Exactly one surviving row per key that occurs in the input, zero for
keys that do not. -/
theorem count_map_dedupBy {α κ : Type} [DecidableEq κ] (f : α → κ)
    (xs : List α) (k : κ) :
    ((dedupBy f xs).map f).count k = if k ∈ xs.map f then 1 else 0 := by
  split
  · rename_i h
    exact List.count_eq_one_of_mem (nodup_map_dedupBy f xs)
      ((map_dedupBy_mem f xs k).mpr h)
  · rename_i h
    exact List.count_eq_zero.mpr (fun hm => h ((map_dedupBy_mem f xs k).mp hm))


theorem expAbove_spec (a : ℕ) (fuel : ℕ) : ∀ b : ℕ, 0 < b → a < b * 2^fuel →
    a < b * 2^(expAbove a b fuel) ∧
      (expAbove a b fuel = 0 ∨ b * 2^(expAbove a b fuel - 1) ≤ a) := by
  induction fuel with
  | zero =>
    intro b hb hfuel
    exact ⟨by simpa [expAbove] using hfuel, Or.inl rfl⟩
  | succ n ih =>
    intro b hb hfuel
    simp only [expAbove]
    split
    · rename_i h
      exact ⟨by simpa using h, Or.inl rfl⟩
    · rename_i h
      have h2 : a < 2 * b * 2^n := by
        calc a < b * 2^(n+1) := hfuel
        _ = 2 * b * 2^n := by ring
      obtain ⟨c1, c2⟩ := ih (2*b) (by omega) h2
      refine ⟨by calc a < 2 * b * 2^(expAbove a (2*b) n) := c1
                _ = b * 2^(expAbove a (2*b) n + 1) := by ring, ?_⟩
      right
      rcases c2 with c2 | c2
      · simpa [c2] using Nat.le_of_not_lt h
      · rcases Nat.eq_zero_or_pos (expAbove a (2*b) n) with hz | hz
        · simpa [hz] using Nat.le_of_not_lt h
        · obtain ⟨m, hm⟩ := Nat.exists_eq_succ_of_ne_zero (Nat.pos_iff_ne_zero.mp hz)
          rw [hm] at c2 ⊢
          simp only [Nat.add_sub_cancel, Nat.succ_sub_one] at c2 ⊢
          calc b * 2^(m+1) = 2 * b * 2^m := by ring
          _ ≤ a := c2

theorem expUpto_spec (b : ℕ) (fuel : ℕ) : ∀ a : ℕ, 0 < a → b ≤ a * 2^fuel →
    b ≤ a * 2^(expUpto b a fuel) ∧
      (expUpto b a fuel = 0 ∨ a * 2^(expUpto b a fuel - 1) < b) := by
  induction fuel with
  | zero =>
    intro a ha hfuel
    exact ⟨by simpa [expUpto] using hfuel, Or.inl rfl⟩
  | succ n ih =>
    intro a ha hfuel
    simp only [expUpto]
    split
    · rename_i h
      exact ⟨by simpa using h, Or.inl rfl⟩
    · rename_i h
      have h2 : b ≤ 2 * a * 2^n := by
        calc b ≤ a * 2^(n+1) := hfuel
        _ = 2 * a * 2^n := by ring
      obtain ⟨c1, c2⟩ := ih (2*a) (by omega) h2
      refine ⟨by calc b ≤ 2 * a * 2^(expUpto b (2*a) n) := c1
                _ = a * 2^(expUpto b (2*a) n + 1) := by ring, ?_⟩
      right
      rcases c2 with c2 | c2
      · simpa [c2] using Nat.lt_of_not_le h
      · rcases Nat.eq_zero_or_pos (expUpto b (2*a) n) with hz | hz
        · simpa [hz] using Nat.lt_of_not_le h
        · obtain ⟨m, hm⟩ := Nat.exists_eq_succ_of_ne_zero (Nat.pos_iff_ne_zero.mp hz)
          rw [hm] at c2 ⊢
          simp only [Nat.add_sub_cancel, Nat.succ_sub_one] at c2 ⊢
          calc a * 2^(m+1) = 2 * a * 2^m := by ring
          _ < b := c2


theorem rnteDiv_eq (b q r : ℕ) (hb : 0 < b) (hr : r < b) :
    rnteDiv (q * b + r) b =
      if 2 * r < b then q else if b < 2 * r then q + 1
      else if q % 2 = 0 then q else q + 1 := by
  have h1 : (q * b + r) / b = q := by
    rw [Nat.add_comm, Nat.add_mul_div_right _ _ hb, Nat.div_eq_of_lt hr, Nat.zero_add]
  have h2 : (q * b + r) % b = r := by
    rw [Nat.add_comm, Nat.add_mul_mod_self_right, Nat.mod_eq_of_lt hr]
  unfold rnteDiv
  rw [h1, h2]

/-- The rounding error of `rnteDiv` is at most half the divisor:
`|rnteDiv x b * b - x| ≤ b / 2`, stated doubled to stay in ℕ. -/
theorem rnteDiv_err (x b : ℕ) (hb : 0 < b) :
    2 * x ≤ 2 * (rnteDiv x b * b) + b ∧ 2 * (rnteDiv x b * b) ≤ 2 * x + b := by
  obtain ⟨q, r, hr, hx⟩ : ∃ q r, r < b ∧ x = q * b + r :=
    ⟨x / b, x % b, Nat.mod_lt _ hb, by rw [Nat.add_comm, Nat.mod_add_div']⟩
  subst hx
  rw [rnteDiv_eq b q r hb hr]
  have hqb : (q + 1) * b = q * b + b := by ring
  split
  · omega
  · split
    · rw [hqb]; omega
    · split
      · omega
      · rw [hqb]; omega

/-- Exact quotients round to themselves. -/
theorem rnteDiv_exact (q b : ℕ) (hb : 0 < b) : rnteDiv (q * b) b = q := by
  have := rnteDiv_eq b q 0 hb hb
  simpa [hb] using this


/-- Under `a < b * 2^(E+1)` with `E ≤ 51` the quotient is below `2^(E+1)`,
so the double's scale `j` is at least `52 - E` and `pyDiv` takes the
fractional-scale branch. -/
theorem pyDiv_shape (a b E : ℕ) (ha : 0 < a) (hb : 0 < b) (hE : E ≤ 51)
    (hbound : a < b * 2^(E+1)) :
    ∃ jn : ℕ, pyDiv a b = (rnteDiv (a * 2^jn) b, jn) ∧ 52 - E ≤ jn := by
  rw [pyDiv, if_neg (Nat.pos_iff_ne_zero.mp ha)]
  rw [pyDivShift]
  by_cases hab : a < b
  · rw [if_pos hab]
    set u := expUpto b a (b+1) with hu
    have hj : ((52 : ℤ) + u) = ((52 + u : ℕ) : ℤ) := by push_cast; ring
    rw [hj, if_pos (by positivity), Int.toNat_natCast]
    exact ⟨52 + u, rfl, by omega⟩
  · rw [if_neg hab]
    have hba : b ≤ a := Nat.le_of_not_lt hab
    set k := expAbove a b (a+1) with hk
    have hfuel : a < b * 2^(a+1) := by
      have h1 : a < 2^a := Nat.lt_two_pow a
      have h2 : (2:ℕ)^a ≤ 2^(a+1) := Nat.pow_le_pow_right (by norm_num) (by omega)
      have h3 : (2:ℕ)^(a+1) ≤ b * 2^(a+1) := Nat.le_mul_of_pos_left _ hb
      omega
    obtain ⟨c1, c2⟩ := expAbove_spec a (a+1) b hb hfuel
    have hk1 : 1 ≤ k := by
      rcases Nat.eq_zero_or_pos k with hz | hz
      · rw [← hk, hz] at c1; simp at c1; omega
      · exact hz
    have hklow : b * 2^(k-1) ≤ a := by
      rcases c2 with c2 | c2
      · omega
      · exact c2
    have hkE : k ≤ E + 1 := by
      by_contra hcon
      have h1 : E + 1 ≤ k - 1 := by omega
      have h2 : b * 2^(E+1) ≤ b * 2^(k-1) :=
        Nat.mul_le_mul_left _ (Nat.pow_le_pow_right (by norm_num) h1)
      omega
    have hj : ((53 : ℤ) - k) = ((53 - k : ℕ) : ℤ) := by
      have : (k : ℤ) ≤ 53 := by exact_mod_cast Nat.le_trans hkE (by omega)
      omega
    rw [hj, if_pos (by positivity), Int.toNat_natCast]
    exact ⟨53 - k, rfl, by omega⟩

/-- Core truncation fact: as long as half the double's spacing is below
`1/b` (i.e. `b < 2 * 2^jn`), flooring the correctly rounded scaled quotient
recovers the true integer quotient. -/
theorem floor_rnteDiv_scaled (a b jn : ℕ) (hb : 0 < b) (hcond : b < 2 * 2^jn) :
    rnteDiv (a * 2^jn) b / 2^jn = a / b := by
  have hP : 0 < 2^jn := Nat.pos_pow_of_pos _ (by norm_num)
  obtain ⟨q, r, hr, ha⟩ : ∃ q r, r < b ∧ a = q * b + r :=
    ⟨a / b, a % b, Nat.mod_lt _ hb, by rw [Nat.add_comm, Nat.mod_add_div']⟩
  have hq : a / b = q := by
    rw [ha, Nat.add_comm, Nat.add_mul_div_right _ _ hb, Nat.div_eq_of_lt hr,
      Nat.zero_add]
  rw [hq]
  rcases Nat.eq_zero_or_pos r with hr0 | hr0
  · have he : a * 2^jn = (q * 2^jn) * b := by rw [ha, hr0]; ring
    rw [he, rnteDiv_exact _ _ hb, Nat.mul_div_cancel _ hP]
  · set n := rnteDiv (a * 2^jn) b with hn
    obtain ⟨e1, e2⟩ := rnteDiv_err (a * 2^jn) b hb
    rw [← hn] at e1 e2
    have ha3 : a * 2^jn = (q * 2^jn) * b + r * 2^jn := by rw [ha]; ring
    rw [ha3] at e1 e2
    have hrP1 : 2^jn ≤ r * 2^jn := Nat.le_mul_of_pos_left _ hr0
    have hrP2 : r * 2^jn + 2^jn ≤ b * 2^jn := by
      have : (r + 1) * 2^jn ≤ b * 2^jn := Nat.mul_le_mul_right _ (by omega)
      calc r * 2^jn + 2^jn = (r + 1) * 2^jn := by ring
      _ ≤ b * 2^jn := this
    have hlow : (q * 2^jn) * b < n * b := by
      generalize hA : (q * 2^jn) * b = A at e1 e2
      generalize hB : n * b = B at e1 e2
      generalize hC : r * 2^jn = C at e1 e2 hrP1 hrP2
      omega
    have hhigh : n * b < (q * 2^jn) * b + b * 2^jn := by
      generalize hA : (q * 2^jn) * b = A at e1 e2
      generalize hB : n * b = B at e1 e2 ⊢
      generalize hC : r * 2^jn = C at e1 e2 hrP1 hrP2
      generalize hD : b * 2^jn = D at hrP2 ⊢
      omega
    have hle : q * 2^jn ≤ n := Nat.le_of_lt (Nat.lt_of_mul_lt_mul_right hlow)
    have hlt : n < (q + 1) * 2^jn := by
      have h1 : n * b < ((q + 1) * 2^jn) * b := by
        calc n * b < (q * 2^jn) * b + b * 2^jn := hhigh
        _ = ((q + 1) * 2^jn) * b := by ring
      exact Nat.lt_of_mul_lt_mul_right h1
    rw [Nat.div_eq_of_lt_le hle (by simpa [Nat.succ_mul, Nat.add_mul] using hlt)]

/-- For every `ts` below `1000 * 2^44` the Python expression
`int(int(ts) / 1000)` equals `ts / 1000` exactly (the float rounding error
is below one millisecond of the quotient). -/
theorem get_timestamp_val_floor (ts : ℕ) (h : ts < 1000 * 2^44) :
    get_timestamp_val ts = ts / 1000 := by
  rcases Nat.eq_zero_or_pos ts with h0 | h0
  · subst h0; rfl
  · obtain ⟨jn, hshape, hjn⟩ := pyDiv_shape ts 1000 43 h0 (by norm_num)
      (by norm_num) (by simpa using h)
    have hcond : 1000 < 2 * 2^jn := by
      have h1 : (2:ℕ)^9 ≤ 2^jn := Nat.pow_le_pow_right (by norm_num) (by omega)
      have h2 : (2:ℕ)^9 = 512 := by norm_num
      omega
    rw [get_timestamp_val, pyIntDivFloat, hshape]
    exact floor_rnteDiv_scaled ts 1000 jn (by norm_num) hcond


/-! ### The fromtimestamp second/microsecond split (claims C8 and C10) -/
/-- For `0 < r`, the correctly rounded scaled quotient lies strictly within
the scaled unit interval of the true quotient. -/
theorem rnteDiv_scaled_window (a b jn q r : ℕ) (hb : 0 < b)
    (hcond : b < 2 * 2^jn) (ha : a = q * b + r) (hr0 : 0 < r) (hr : r < b) :
    q * 2^jn < rnteDiv (a * 2^jn) b ∧ rnteDiv (a * 2^jn) b < (q+1) * 2^jn := by
  have hP : 0 < 2^jn := Nat.pos_pow_of_pos _ (by norm_num)
  set n := rnteDiv (a * 2^jn) b with hn
  obtain ⟨e1, e2⟩ := rnteDiv_err (a * 2^jn) b hb
  rw [← hn] at e1 e2
  have ha3 : a * 2^jn = (q * 2^jn) * b + r * 2^jn := by rw [ha]; ring
  rw [ha3] at e1 e2
  have hrP1 : 2^jn ≤ r * 2^jn := Nat.le_mul_of_pos_left _ hr0
  have hrP2 : r * 2^jn + 2^jn ≤ b * 2^jn := by
    have h5 : (r + 1) * 2^jn ≤ b * 2^jn := Nat.mul_le_mul_right _ (by omega)
    calc r * 2^jn + 2^jn = (r + 1) * 2^jn := by ring
    _ ≤ b * 2^jn := h5
  constructor
  · have hlow : (q * 2^jn) * b < n * b := by
      generalize (q * 2^jn) * b = A at e1 e2
      generalize hB : n * b = B at e1 e2
      generalize r * 2^jn = C at e1 e2 hrP1 hrP2
      omega
    exact Nat.lt_of_mul_lt_mul_right hlow
  · have hhigh : n * b < ((q+1) * 2^jn) * b := by
      have hexp : ((q+1) * 2^jn) * b = (q * 2^jn) * b + b * 2^jn := by ring
      rw [hexp]
      generalize (q * 2^jn) * b = A at e1 e2
      generalize hB : n * b = B at e1 e2 ⊢
      generalize r * 2^jn = C at e1 e2 hrP1 hrP2
      generalize b * 2^jn = D at hrP2 ⊢
      omega
    exact Nat.lt_of_mul_lt_mul_right hhigh

/-- Exact behaviour of `datetime.fromtimestamp(ts/1000.0)`'s second and
microsecond split in the representable range: the whole seconds are exactly
`ts / 1000` and the microseconds stay within 16 of `1000 * (ts % 1000)`
(and below one million, so no carry occurs). -/
theorem pyTimestampParts_spec (ts : ℕ) (h : ts ≤ 253402214399999) :
    (pyTimestampParts ts).1 = ts / 1000 ∧
    (pyTimestampParts ts).2 ≤ 999999 ∧
    1000000 * (ts % 1000) ≤ 1000 * (pyTimestampParts ts).2 + 16000 ∧
    1000 * (pyTimestampParts ts).2 ≤ 1000000 * (ts % 1000) + 16000 := by
  rcases Nat.eq_zero_or_pos ts with h0 | h0
  · subst h0
    exact ⟨rfl, by decide, by decide, by decide⟩
  obtain ⟨jn, hshape, hjn⟩ := pyDiv_shape ts 1000 37 h0 (by norm_num) (by norm_num)
    (by calc ts ≤ 253402214399999 := h
        _ < 1000 * 2^(37+1) := by norm_num)
  have hPpos : 0 < 2^jn := Nat.pos_pow_of_pos _ (by norm_num)
  have hP15 : 32768 ≤ 2^jn := by
    calc (32768:ℕ) = 2^15 := by norm_num
    _ ≤ 2^jn := Nat.pow_le_pow_right (by norm_num) (by omega)
  have hcond : 1000 < 2 * 2^jn := by omega
  set k := ts / 1000 with hk
  set r := ts % 1000 with hr
  have hts : ts = k * 1000 + r := by rw [hk, hr, Nat.div_add_mod']
  have hrb : r < 1000 := Nat.mod_lt _ (by norm_num)
  set n := rnteDiv (ts * 2^jn) 1000 with hn
  have hparts : pyTimestampParts ts =
      (if rnteDiv ((n % 2^jn) * 1000000) (2^jn) = 1000000
        then (n / 2^jn + 1, 0) else (n / 2^jn, rnteDiv ((n % 2^jn) * 1000000) (2^jn))) := by
    rw [pyTimestampParts.eq_def, hshape]
  rcases Nat.eq_zero_or_pos r with hr0 | hr0
  · -- exact millisecond boundary: the double is exactly k seconds
    have hexact : ts * 2^jn = (k * 2^jn) * 1000 := by rw [hts, hr0]; ring
    have hneq : n = k * 2^jn := by rw [hn, hexact, rnteDiv_exact _ _ (by norm_num)]
    have hus0 : rnteDiv ((n % 2^jn) * 1000000) (2^jn) = 0 := by
      rw [hneq, Nat.mul_mod_left, Nat.zero_mul]
      have := rnteDiv_eq (2^jn) 0 0 hPpos hPpos
      simpa [hPpos] using this
    rw [hparts, hus0]
    rw [if_neg (by norm_num)]
    refine ⟨?_, by norm_num, by omega, by omega⟩
    rw [hneq, Nat.mul_div_cancel _ hPpos]
  · -- strict interior: seconds floor to k, micros near 1000*r
    obtain ⟨hwin1, hwin2⟩ := rnteDiv_scaled_window ts 1000 jn k r (by norm_num)
      hcond hts hr0 hrb
    rw [← hn] at hwin1 hwin2
    have hs : n / 2^jn = k :=
      Nat.div_eq_of_lt_le (Nat.le_of_lt hwin1)
        (by simpa [Nat.succ_mul, Nat.add_mul] using hwin2)
    set rem := n % 2^jn with hrem
    have hremk : rem + 2^jn * k = n := by
      have h5 := Nat.mod_add_div n (2^jn)
      rw [hs] at h5
      exact h5
    have hremP : rem < 2^jn := Nat.mod_lt _ hPpos
    -- the double's fractional part tracks r/1000 to within half a step
    obtain ⟨e1, e2⟩ := rnteDiv_err (ts * 2^jn) 1000 (by norm_num)
    rw [← hn] at e1 e2
    have hts2 : ts * 2^jn = 2^jn * k * 1000 + r * 2^jn := by rw [hts]; ring
    have hn2 : n * 1000 = rem * 1000 + 2^jn * k * 1000 := by
      rw [← hremk]; ring
    rw [hts2, hn2] at e1 e2
    have F1 : 2 * (r * 2^jn) ≤ 2000 * rem + 1000 := by
      generalize 2^jn * k * 1000 = A at e1 e2
      generalize r * 2^jn = B at e1 e2 ⊢
      omega
    have F2 : 2000 * rem ≤ 2 * (r * 2^jn) + 1000 := by
      generalize 2^jn * k * 1000 = A at e1 e2
      generalize r * 2^jn = B at e1 e2 ⊢
      omega
    set us := rnteDiv (rem * 1000000) (2^jn) with hus
    obtain ⟨g1, g2⟩ := rnteDiv_err (rem * 1000000) (2^jn) hPpos
    rw [← hus] at g1 g2
    have hrP999 : r * 2^jn ≤ 999 * 2^jn := Nat.mul_le_mul_right _ (by omega)
    -- microseconds stay below one million
    have husb : us ≤ 999999 := by
      have hUb : 2 * (us * 2^jn) ≤ 1999998 * 2^jn := by
        generalize hU : us * 2^jn = U at g1 g2
        generalize hB : r * 2^jn = B at F1 F2 hrP999
        omega
      have hc : us * (2 * 2^jn) ≤ 999999 * (2 * 2^jn) := by
        calc us * (2 * 2^jn) = 2 * (us * 2^jn) := by ring
        _ ≤ 1999998 * 2^jn := hUb
        _ = 999999 * (2 * 2^jn) := by ring
      exact Nat.le_of_mul_le_mul_right hc (by omega)
    have hd1 : 1000000 * r ≤ 1000 * us + 16000 := by
      have hscale : (1000000 * r) * (2 * 2^jn) ≤ (1000 * us + 16000) * (2 * 2^jn) := by
        have hL : (1000000 * r) * (2 * 2^jn) = 1000000 * (2 * (r * 2^jn)) := by ring
        have hR : (1000 * us + 16000) * (2 * 2^jn)
            = 1000 * (2 * (us * 2^jn)) + 32000 * 2^jn := by ring
        rw [hL, hR]
        generalize hU : us * 2^jn = U at g1 g2
        generalize hB : r * 2^jn = B at F1 F2 hrP999
        omega
      exact Nat.le_of_mul_le_mul_right hscale (by omega)
    have hd2 : 1000 * us ≤ 1000000 * r + 16000 := by
      have hscale : (1000 * us) * (2 * 2^jn) ≤ (1000000 * r + 16000) * (2 * 2^jn) := by
        have hL : (1000 * us) * (2 * 2^jn) = 1000 * (2 * (us * 2^jn)) := by ring
        have hR : (1000000 * r + 16000) * (2 * 2^jn)
            = 1000000 * (2 * (r * 2^jn)) + 32000 * 2^jn := by ring
        rw [hL, hR]
        generalize hU : us * 2^jn = U at g1 g2
        generalize hB : r * 2^jn = B at F1 F2 hrP999
        omega
      exact Nat.le_of_mul_le_mul_right hscale (by omega)
    rw [hparts]
    rw [if_neg (show ¬ us = 1000000 by omega)]
    exact ⟨hs, husb, hd1, hd2⟩

/-- Field ranges of the civil conversion over the day range
1969-12-31 .. 9999-12-31 (`z` counts days from 0000-03-01). -/
theorem civilFromDays_range (z : ℕ) (h1 : 719467 ≤ z) (h2 : z ≤ 3652364) :
    1 ≤ (civilFromDays z).1 ∧ (civilFromDays z).1 ≤ 9999 ∧
    1 ≤ (civilFromDays z).2.1 ∧ (civilFromDays z).2.1 ≤ 12 ∧
    1 ≤ (civilFromDays z).2.2 ∧ (civilFromDays z).2.2 ≤ 31 := by
  simp only [civilFromDays]
  split_ifs with hmp hm1 hm2 <;> omega

/-- In the representable range (year at most 9999, timezone offset at most
14 hours) every field of the derived datetime is within its rendering
range. -/
theorem pyDatetime_valid (tz : ℤ) (ts : ℕ) (htz1 : -50400 ≤ tz)
    (htz2 : tz ≤ 50400) (hts : ts ≤ 253402214399999) :
    1 ≤ (pyDatetime tz ts).year ∧ (pyDatetime tz ts).year ≤ 9999 ∧
    1 ≤ (pyDatetime tz ts).month ∧ (pyDatetime tz ts).month ≤ 12 ∧
    1 ≤ (pyDatetime tz ts).day ∧ (pyDatetime tz ts).day ≤ 31 ∧
    (pyDatetime tz ts).hour ≤ 23 ∧ (pyDatetime tz ts).minute ≤ 59 ∧
    (pyDatetime tz ts).second ≤ 59 ∧ (pyDatetime tz ts).micros ≤ 999999 := by
  obtain ⟨hs, hus, _, _⟩ := pyTimestampParts_spec ts hts
  simp only [pyDatetime]
  have hz1 : 719467 ≤ ((((pyTimestampParts ts).1 : ℤ) + tz) / 86400 + 719468).toNat ∧
      ((((pyTimestampParts ts).1 : ℤ) + tz) / 86400 + 719468).toNat ≤ 3652364 := by
    omega
  have hciv := civilFromDays_range _ hz1.1 hz1.2
  exact ⟨hciv.1, hciv.2.1, hciv.2.2.1, hciv.2.2.2.1, hciv.2.2.2.2.1,
    hciv.2.2.2.2.2, by omega, by omega, by omega, hus⟩

/-! ### Rendering and parsing of datetime strings -/

theorem digitVal_ofNat (k : ℕ) (h : k ≤ 9) :
    digitVal (Char.ofNat (48 + k)) = some k := by
  have hall : ∀ k' < 10, digitVal (Char.ofNat (48 + k')) = some k' := by decide
  exact hall k (by omega)

theorem dec2_digits (n : ℕ) (h : n ≤ 99) :
    dec2 (Char.ofNat (48 + n / 10)) (Char.ofNat (48 + n % 10)) = some n := by
  rw [dec2, digitVal_ofNat (n / 10) (by omega), digitVal_ofNat (n % 10) (by omega)]
  show some (10 * (n / 10) + n % 10) = some n
  congr 1
  omega

theorem parse_render_roundtrip (d : PyDatetime)
    (hy1 : 1 ≤ d.year) (hy2 : d.year ≤ 9999)
    (hmo1 : 1 ≤ d.month) (hmo2 : d.month ≤ 12)
    (hd1 : 1 ≤ d.day) (hd2 : d.day ≤ 31)
    (hh : d.hour ≤ 23) (hmi : d.minute ≤ 59) (hs : d.second ≤ 59)
    (hus : d.micros ≤ 999999) :
    parseDT (renderDT d) = some d := by
  obtain ⟨y, mo, dy, hh', mi, ss, us⟩ := d
  simp only at hy1 hy2 hmo1 hmo2 hd1 hd2 hh hmi hs hus
  rw [parseDT, renderDT]
  show parseChars (fourDigits y ++ '-' :: twoDigits mo ++ '-' ::
    twoDigits dy ++ ' ' :: twoDigits hh' ++ ':' :: twoDigits mi ++
    ':' :: twoDigits ss ++
    (if us = 0 then [] else '.' :: sixDigits us)) = some ⟨y, mo, dy, hh', mi, ss, us⟩
  by_cases hus0 : us = 0
  · subst hus0
    rw [if_pos rfl]
    simp only [fourDigits, twoDigits, sixDigits, List.cons_append,
      List.nil_append, List.append_assoc, List.append_nil]
    rw [parseChars]
    rw [dec2_digits (y / 100) (by omega), dec2_digits (y % 100) (by omega),
      dec2_digits mo (by omega), dec2_digits dy (by omega),
      dec2_digits hh' (by omega), dec2_digits mi (by omega),
      dec2_digits ss (by omega)]
    show mkValidDT (100 * (y / 100) + y % 100) mo dy hh' mi ss 0 = _
    rw [mkValidDT, if_pos (by omega)]
    congr 1
    congr 1
    omega
  · rw [if_neg hus0]
    simp only [fourDigits, twoDigits, sixDigits, List.cons_append,
      List.nil_append, List.append_assoc, List.append_nil]
    rw [parseChars]
    rw [dec2_digits (y / 100) (by omega), dec2_digits (y % 100) (by omega),
      dec2_digits mo (by omega), dec2_digits dy (by omega),
      dec2_digits hh' (by omega), dec2_digits mi (by omega),
      dec2_digits ss (by omega),
      dec2_digits (us / 10000) (by omega),
      dec2_digits (us / 100 % 100) (by omega),
      dec2_digits (us % 100) (by omega)]
    show mkValidDT (100 * (y / 100) + y % 100) mo dy hh' mi ss
      (10000 * (us / 10000) + 100 * (us / 100 % 100) + us % 100) = _
    rw [mkValidDT, if_pos (by omega)]
    congr 1
    congr 1
    omega
    omega

/-! ### The timestamp udf (claim C3) -/

/-- C3 as stated is false: the derivation does not equal `floor(ts/1000)`
for every non-negative `ts`.  At `ts = 4503599627370495999` the true
quotient `4503599627370495.999` has no close double, the division rounds up
to `2^52`, and `int()` then yields `floor + 1`. -/
theorem get_timestamp_not_floor_counterexample :
    get_timestamp_val 4503599627370495999 = 4503599627370496 ∧
    (4503599627370495999 : ℕ) / 1000 = 4503599627370495 ∧
    get_timestamp_val 4503599627370495999 ≠ 4503599627370495999 / 1000 := by
  refine ⟨by decide, by decide, by decide⟩

/-- C3 amended: the derivation is deterministic and truncates, not rounds:
`ts = 1541207123999` yields `1541207123`; and for every non-negative
`ts < 1000 * 2^44` (where the double's rounding error stays below one
millisecond of quotient) it equals `floor(ts / 1000)`. -/
theorem get_timestamp_truncating_below_threshold :
    get_timestamp_val 1541207123999 = 1541207123 ∧
    ∀ ts : ℕ, ts < 1000 * 2^44 → get_timestamp_val ts = ts / 1000 :=
  ⟨by decide, fun ts h => get_timestamp_val_floor ts h⟩

/-- Witness for the amended C3 at the spec's concrete input. -/
theorem get_timestamp_truncating_below_threshold_witness :
    1541207123999 < 1000 * 2^44 ∧ get_timestamp_val 1541207123999 = 1541207123 :=
  ⟨by decide,
   (get_timestamp_truncating_below_threshold.2 1541207123999 (by decide)).trans
     (by decide)⟩

/-! ### Globs (claim C2) -/

theorem append_right_ne (s : String) {t u : String} (h : t ≠ u) :
    s ++ t ≠ s ++ u := by
  cases s with | mk sd =>
  cases t with | mk td =>
  cases u with | mk ud =>
  intro he
  apply h
  have hd : sd ++ td = sd ++ ud := congrArg String.data he
  exact congrArg String.mk (List.append_cancel_left hd)

/-- For every input root the two catalog globs address different paths. -/
theorem songplays_reload_glob_ne (input : String) :
    songplays_song_glob input ≠ song_data_glob input := by
  simp only [songplays_song_glob, song_data_glob, osPathJoin]
  split_ifs
  · exact append_right_ne input (by decide)
  · exact append_right_ne (input ++ "/") (by decide)

/-- C2: the Event Extractor re-loads catalog records for the songplays join
from `song-data/*/*/*/*.json` (hyphen) while the Catalog Extractor loads
`song_data/*/*/*/*.json` (underscore); at the hardcoded input root the two
globs are different paths, so the two loads do not address the same files. -/
theorem songplays_reload_glob_differs_at_default :
    song_data_glob "s3a://udacity-dend/"
        = "s3a://udacity-dend/song_data/*/*/*/*.json" ∧
    songplays_song_glob "s3a://udacity-dend/"
        = "s3a://udacity-dend/song-data/*/*/*/*.json" ∧
    songplays_song_glob "s3a://udacity-dend/"
        ≠ song_data_glob "s3a://udacity-dend/" := by
  refine ⟨by decide, by decide, by decide⟩

/-! ### The songplays projection and write (claims C1 and C9) -/

/-- C1: the songplays projection keeps only
`userId, level, song_id, artist_id, sessionId, location, userAgent` — it has
no `start_time`, `year` or `month` column — and therefore the partitioned
write `partitionBy('year','month')` fails for every input: the engine
rejects partition columns that are absent from the schema, so no songplays
table of the claimed shape is ever written. -/
theorem songplays_write_missing_partition_columns (tz : ℤ)
    (logDf songDf : DataFrame) (st : Storage) (path : String) :
    (songplays_write_input tz logDf songDf).schema
        = ["userId", "level", "song_id", "artist_id", "sessionId",
           "location", "userAgent"] ∧
    "start_time" ∉ (songplays_write_input tz logDf songDf).schema ∧
    "year" ∉ (songplays_write_input tz logDf songDf).schema ∧
    "month" ∉ (songplays_write_input tz logDf songDf).schema ∧
    writeParquet st (songplays_write_input tz logDf songDf) ["year", "month"]
        path = none := by
  refine ⟨rfl, ?_, ?_, ?_, ?_⟩
  · show "start_time" ∉ ["userId", "level", "song_id", "artist_id",
      "sessionId", "location", "userAgent"]
    decide
  · show "year" ∉ ["userId", "level", "song_id", "artist_id", "sessionId",
      "location", "userAgent"]
    decide
  · show "month" ∉ ["userId", "level", "song_id", "artist_id", "sessionId",
      "location", "userAgent"]
    decide
  · have hc : columnsOk ["year", "month"] (songplays_write_input tz logDf songDf)
        = false := rfl
    simp [writeParquet, hc]

/-- C9: the synthetic monotonically increasing identifier is computed over
the songplays row set but discarded: the dataframe reaching the write call
is `songplays_table` itself, unchanged, and carries no `songplay_id`
column. -/
theorem songplay_id_computed_but_not_persisted (tz : ℤ)
    (logDf songDf : DataFrame) :
    songplays_write_input tz logDf songDf = songplays_table tz logDf songDf ∧
    (songplay_id_select (songplays_table tz logDf songDf)).schema
        = ["songplay_id"] ∧
    "songplay_id" ∉ (songplays_write_input tz logDf songDf).schema := by
  refine ⟨rfl, rfl, ?_⟩
  show "songplay_id" ∉ ["userId", "level", "song_id", "artist_id",
    "sessionId", "location", "userAgent"]
  decide

/-! ### Idempotence of the full run (claim C7) -/

/-- The four valid writes land; the songplays write fails its
partition-column check and leaves storage as already written. -/
theorem runEtl_normal_form (read : String → DataFrame) (tz : ℤ)
    (input output : String) (st : Storage) :
    runEtl read tz input output st =
      updateStorage (updateStorage (updateStorage (updateStorage st
        (osPathJoin output "songs.parquet")
        (songs_table (read (song_data_glob input))))
        (osPathJoin output "artists.parquet")
        (artists_table (read (song_data_glob input))))
        (osPathJoin output "users.parquet")
        (users_table (read (log_data_glob input))))
        (osPathJoin output "time.parquet")
        (time_table tz (read (log_data_glob input))) := rfl

/-- C7: with identical inputs, a second full pipeline run writes every
table again with identical contents over the same paths (overwrite mode),
leaving the final persisted state unchanged. -/
theorem etl_rerun_idempotent (read : String → DataFrame) (tz : ℤ)
    (input output : String) (st : Storage) :
    runEtl read tz input output (runEtl read tz input output st)
      = runEtl read tz input output st := by
  rw [runEtl_normal_form, runEtl_normal_form]
  funext q
  simp only [updateStorage]
  split_ifs <;> rfl

/-! ### Key uniqueness of the deduplicated tables (claims C4 and C5) -/

theorem getVal_projRow_head (c : String) (cols : List String) (r : Row) :
    getVal (projRow (c :: cols) r) c = getVal r c := by
  simp [projRow, getVal]

/-- Deduplication is invariant under an injective transformation of the
key. -/
theorem dedupByAux_key_comp {α κ κ' : Type} [DecidableEq κ] [DecidableEq κ']
    (f : α → κ) (h : κ → κ') (hinj : Function.Injective h) :
    ∀ (seen : List κ) (xs : List α),
      dedupByAux (fun x => h (f x)) (seen.map h) xs = dedupByAux f seen xs := by
  intro seen xs
  induction xs generalizing seen with
  | nil => rfl
  | cons x xs ih =>
    simp only [dedupByAux]
    rw [if_congr (List.mem_map_of_injective hinj) rfl rfl]
    split
    · exact ih seen
    · rw [← List.map_cons]
      rw [ih (f x :: seen)]

/-- A single-column `dropDuplicates` key behaves like the bare column
value. -/
theorem dedupBy_single_key (c : String) (xs : List Row) :
    dedupBy (rowKey [c]) xs = dedupBy (fun r => getVal r c) xs := by
  have hsing : Function.Injective (fun v : Value => [v]) := by
    intro a b hab
    simpa using hab
  have hkey : rowKey [c] = fun r => [getVal r c] := by
    funext r
    simp [rowKey]
  rw [dedupBy, dedupBy, hkey]
  exact dedupByAux_key_comp (fun r => getVal r c) (fun v => [v]) hsing [] xs

/-- Counting a key value in the deduplicated table: one occurrence per key
present in the input, none otherwise. -/
theorem count_getVal_dropDuplicates (c : String) (df : DataFrame) (k : Value) :
    ((dropDuplicates [c] df).rows.map (fun r => getVal r c)).count k
      = if k ∈ df.rows.map (fun r => getVal r c) then 1 else 0 := by
  show ((dedupBy (rowKey [c]) df.rows).map (fun r => getVal r c)).count k = _
  rw [dedupBy_single_key]
  exact count_map_dedupBy (fun r => getVal r c) df.rows k

theorem map_getVal_selectCols_head (c : String) (cols : List String)
    (df : DataFrame) :
    (selectCols (c :: cols) df).rows.map (fun r => getVal r c)
      = df.rows.map (fun r => getVal r c) := by
  show (df.rows.map (projRow (c :: cols))).map (fun r => getVal r c) = _
  rw [List.map_map]
  exact List.map_congr_left (fun r _ => getVal_projRow_head c cols r)

/-- C4: the songs table has exactly one row per `song_id` value occurring in
the catalog input, and each surviving row is the full
`song_id/title/artist_id/year/duration` projection of a single input row
with that `song_id`. -/
theorem songs_table_spec (df : DataFrame) :
    (∀ r ∈ (songs_table df).rows, ∃ src ∈ df.rows,
        r = projRow ["song_id", "title", "artist_id", "year", "duration"] src ∧
        getVal r "song_id" = getVal src "song_id") ∧
    (∀ k : Value,
      ((songs_table df).rows.map (fun r => getVal r "song_id")).count k
        = if k ∈ df.rows.map (fun r => getVal r "song_id") then 1 else 0) := by
  constructor
  · intro r hr
    have hr2 : r ∈ (selectCols ["song_id", "title", "artist_id", "year",
        "duration"] df).rows := mem_of_mem_dedupBy _ _ _ hr
    obtain ⟨src, hsrc, hproj⟩ := List.mem_map.mp hr2
    refine ⟨src, hsrc, hproj.symm, ?_⟩
    rw [← hproj]
    exact getVal_projRow_head _ _ _
  · intro k
    have h := count_getVal_dropDuplicates "song_id"
      (selectCols ["song_id", "title", "artist_id", "year", "duration"] df) k
    rw [map_getVal_selectCols_head] at h
    exact h

/-- C5: each derived table keyed by deduplication has exactly one row per
distinct key value: `artist_id` for artists, `userId` for users and the
derived `start_time` string for the time table. -/
theorem derived_key_columns_unique (songDf logDf : DataFrame) (tz : ℤ) :
    (∀ k : Value,
      ((artists_table songDf).rows.map (fun r => getVal r "artist_id")).count k
        = if k ∈ songDf.rows.map (fun r => getVal r "artist_id") then 1 else 0) ∧
    (∀ k : Value,
      ((users_table logDf).rows.map (fun r => getVal r "userId")).count k
        = if k ∈ logDf.rows.map (fun r => getVal r "userId") then 1 else 0) ∧
    (∀ k : Value,
      ((time_table tz logDf).rows.map (fun r => getVal r "start_time")).count k
        = if k ∈ (time_table_raw tz logDf).rows.map (fun r => getVal r "start_time")
          then 1 else 0) := by
  refine ⟨fun k => ?_, fun k => ?_, fun k => ?_⟩
  · have h := count_getVal_dropDuplicates "artist_id"
      (selectCols ["artist_id", "artist_name", "artist_location",
        "artist_latitude", "artist_longitude"] songDf) k
    rw [map_getVal_selectCols_head] at h
    exact h
  · have h := count_getVal_dropDuplicates "userId"
      (selectCols ["userId", "firstName", "lastName", "gender", "level"] logDf) k
    rw [map_getVal_selectCols_head] at h
    exact h
  · exact count_getVal_dropDuplicates "start_time" (time_table_raw tz logDf) k

/-- Witness: on the concrete catalog input with two rows sharing `S1`, the
songs table keeps exactly one `S1` row, and that row is the projection of an
input row. -/
theorem songs_table_spec_witness :
    (∃ src ∈ exSongDf.rows,
        projRow ["song_id", "title", "artist_id", "year", "duration"] exSongRow1
          = projRow ["song_id", "title", "artist_id", "year", "duration"] src ∧
        getVal (projRow ["song_id", "title", "artist_id", "year", "duration"]
          exSongRow1) "song_id" = getVal src "song_id") ∧
    ((songs_table exSongDf).rows.map (fun r => getVal r "song_id")).count
        (Value.str "S1") = 1 :=
  ⟨(songs_table_spec exSongDf).1 _ (by decide),
   ((songs_table_spec exSongDf).2 (Value.str "S1")).trans (by decide)⟩

/-- Witness: concrete key counts for the three tables of C5. -/
theorem derived_key_columns_unique_witness :
    ((artists_table exSongDf).rows.map (fun r => getVal r "artist_id")).count
        (Value.str "A1") = 1 ∧
    ((users_table exLogDf).rows.map (fun r => getVal r "userId")).count
        (Value.str "U1") = 1 ∧
    ((time_table 0 exLogDf).rows.map (fun r => getVal r "start_time")).count
        (Value.str "2018-11-02 18:38:43.796000") = 1 :=
  ⟨((derived_key_columns_unique exSongDf exLogDf 0).1 (Value.str "A1")).trans
      (by decide),
   ((derived_key_columns_unique exSongDf exLogDf 0).2.1 (Value.str "U1")).trans
      (by decide),
   ((derived_key_columns_unique exSongDf exLogDf 0).2.2 (Value.str "2018-11-02 18:38:43.796000")).trans
      (by decide)⟩

/-! ### Inner-join semantics of songplays (claim C6) -/

theorem getVal_eq_null_of_notin (s : Row) (c : String)
    (h : ∀ p ∈ s, p.1 ≠ c) : getVal s c = .null := by
  induction s with
  | nil => rfl
  | cons hd tl ih =>
    obtain ⟨c', v⟩ := hd
    have hne : c' ≠ c := h (c', v) (List.mem_cons_self _ _)
    rw [getVal, if_neg hne]
    exact ih (fun p hp => h p (List.mem_cons_of_mem _ hp))

theorem getVal_append_notin (r s : Row) (c : String)
    (h : ∀ p ∈ s, p.1 ≠ c) : getVal (r ++ s) c = getVal r c := by
  induction r with
  | nil => simpa [getVal] using getVal_eq_null_of_notin s c h
  | cons hd tl ih =>
    obtain ⟨c', v⟩ := hd
    rw [List.cons_append, getVal, getVal]
    split
    · rfl
    · exact ih

theorem getVal_cons (c' : String) (v : Value) (r : Row) (c : String) :
    getVal ((c', v) :: r) c = if c' = c then v else getVal r c := rfl

/-- Dropping the entries of an unrelated column name does not change a
lookup. -/
theorem getVal_filter_ne (r : Row) (name c : String) (h : c ≠ name) :
    getVal (r.filter (fun p => p.1 != name)) c = getVal r c := by
  induction r with
  | nil => rfl
  | cons hd tl ih =>
    obtain ⟨c', w⟩ := hd
    rw [List.filter_cons]
    by_cases hcn : c' = name
    · rw [if_neg (by simp [hcn])]
      rw [ih, getVal_cons,
        if_neg (show ¬ c' = c from fun he => h (by rw [← he]; exact hcn))]
    · rw [if_pos (by simp [hcn])]
      rw [getVal_cons, getVal_cons]
      by_cases hcc : c' = c
      · rw [if_pos hcc, if_pos hcc]
      · rw [if_neg hcc, if_neg hcc]
        exact ih

/-- Looking up the freshly written column of a `withColumn` row. -/
theorem getVal_append_self (s : Row) (name : String) (v : Value)
    (h : ∀ p ∈ s, p.1 ≠ name) : getVal (s ++ [(name, v)]) name = v := by
  induction s with
  | nil => rw [List.nil_append, getVal_cons, if_pos rfl]
  | cons hd tl ih =>
    obtain ⟨c', w⟩ := hd
    have hne : c' ≠ name := h (c', w) (List.mem_cons_self _ _)
    rw [List.cons_append, getVal_cons, if_neg hne]
    exact ih (fun p hp => h p (List.mem_cons_of_mem _ hp))

/-- Every entry surviving the `withColumn` filter has a different name. -/
theorem filter_name_ne (r : Row) (name : String) :
    ∀ p ∈ r.filter (fun p => p.1 != name), p.1 ≠ name := by
  intro p hp
  have := (List.mem_filter.mp hp).2
  simpa using this

/-- The value of the column written by `withColumn`. -/
theorem getVal_withColumn_self (name : String) (f : Row → Value)
    (df : DataFrame) (r : Row) (hr : r ∈ (withColumn name f df).rows) :
    ∃ r0 ∈ df.rows,
      r = r0.filter (fun p => p.1 != name) ++ [(name, f r0)] ∧
      getVal r name = f r0 := by
  obtain ⟨r0, hr0, hq⟩ := List.mem_map.mp hr
  refine ⟨r0, hr0, hq.symm, ?_⟩
  rw [← hq]
  exact getVal_append_self _ _ _ (filter_name_ne r0 name)

/-- A lookup of an unrelated column passes through a `withColumn` row. -/
theorem getVal_withColumn_other (name : String) (f : Row → Value)
    (df : DataFrame) (r : Row) (hr : r ∈ (withColumn name f df).rows)
    (c : String) (hc : c ≠ name) :
    ∃ r0 ∈ df.rows, getVal r c = getVal r0 c := by
  obtain ⟨r0, hr0, hq⟩ := List.mem_map.mp hr
  refine ⟨r0, hr0, ?_⟩
  rw [← hq]
  rw [getVal_append_notin _ _ _ (by
    intro p hp
    rw [List.mem_singleton] at hp
    subst hp
    exact fun he => hc he.symm)]
  exact getVal_filter_ne r0 name c hc

/-- The derived `timestamp`/`datetime` columns do not shadow `song`. -/
theorem getVal_log_augmented_song (tz : ℤ) (df : DataFrame) (r : Row)
    (hr : r ∈ (log_augmented tz df).rows) :
    ∃ r0 ∈ df.rows, getVal r "song" = getVal r0 "song" := by
  obtain ⟨r1, hr1, h1⟩ := getVal_withColumn_other "datetime" _ _ r hr "song"
    (by decide)
  obtain ⟨r0, hr0, h0⟩ := getVal_withColumn_other "timestamp" _ _ r1 hr1 "song"
    (by decide)
  exact ⟨r0, hr0, h1.trans h0⟩

/-- Every songplays row originates from a log row and a catalog row whose
`song`/`title` satisfy the join condition. -/
theorem mem_songplays_elim (tz : ℤ) (logDf songDf : DataFrame) (r : Row)
    (hr : r ∈ (songplays_table tz logDf songDf).rows) :
    ∃ lr ∈ logDf.rows, ∃ sr ∈ songDf.rows,
      sqlEq (getVal sr "title") (getVal lr "song") = true := by
  obtain ⟨rj, hrj, _⟩ := List.mem_map.mp hr
  obtain ⟨la, hla, hin⟩ := List.mem_flatMap.mp hrj
  obtain ⟨sr, hsr, _⟩ := List.mem_map.mp hin
  obtain ⟨hsr1, hsr2⟩ := List.mem_filter.mp hsr
  obtain ⟨r0, hr0, hsong⟩ := getVal_log_augmented_song tz logDf la hla
  exact ⟨r0, hr0, sr, hsr1, by rw [← hsong]; exact hsr2⟩

/-- C6: songplays rows exist only for log records whose `song` equals some
catalog `title` under SQL equality (inner join); with zero overlapping
titles the songplays table is empty. -/
theorem songplays_inner_join_only (tz : ℤ) (logDf songDf : DataFrame) :
    (∀ r ∈ (songplays_table tz logDf songDf).rows,
        ∃ lr ∈ logDf.rows, ∃ sr ∈ songDf.rows,
          sqlEq (getVal sr "title") (getVal lr "song") = true) ∧
    ((∀ lr ∈ logDf.rows, ∀ sr ∈ songDf.rows,
          sqlEq (getVal sr "title") (getVal lr "song") = false) →
        (songplays_table tz logDf songDf).rows = []) := by
  refine ⟨fun r hr => mem_songplays_elim tz logDf songDf r hr, fun hdisj => ?_⟩
  rw [List.eq_nil_iff_forall_not_mem]
  intro r hr
  obtain ⟨lr, hlr, sr, hsr, heq⟩ := mem_songplays_elim tz logDf songDf r hr
  rw [hdisj lr hlr sr hsr] at heq
  exact Bool.false_ne_true heq

/-- Witness: the matching log row yields a songplays row backed by a
catalog row; the disjoint-title inputs yield an empty songplays table. -/
theorem songplays_inner_join_only_witness :
    (∃ lr ∈ exLogDf.rows, ∃ sr ∈ exSongDf.rows,
        sqlEq (getVal sr "title") (getVal lr "song") = true) ∧
    (songplays_table 0 exLogDfNoMatch exSongDf).rows = [] :=
  ⟨(songplays_inner_join_only 0 exLogDf exSongDf).1 exSongplayRow (by decide),
   (songplays_inner_join_only 0 exLogDfNoMatch exSongDf).2 (by decide)⟩


/-! ### Consistency and millisecond resolution of the time table
(claims C8 and C10) -/

/-- The `start_time` column of the raw time table is, rowwise, the rendered
local datetime of each log record's `ts`. -/
theorem time_table_raw_start_times (tz : ℤ) (df : DataFrame) :
    (time_table_raw tz df).rows.map (fun r => getVal r "start_time")
      = df.rows.map (fun r0 => Value.str (get_datetime tz (tsOfValue (getVal r0 "ts")))) := by
  simp only [time_table_raw, log_augmented, log_with_timestamp, withColumn,
    List.map_map]
  apply List.map_congr_left
  intro r0 _
  simp only [Function.comp]
  rw [getVal_cons, if_pos rfl]
  rw [getVal_append_self _ _ _ (filter_name_ne _ "datetime")]
  rw [getVal_append_notin _ _ _ (by
    intro p hp
    rw [List.mem_singleton] at hp
    subst hp
    show ¬ ("timestamp" : String) = "ts"
    decide)]
  rw [getVal_filter_ne _ _ _ (by decide)]

/-- C8: for every row of the time table (log `ts` values within the
datetime-representable range, local offset within ±14h), the `start_time`
string parses back to a datetime whose hour, day, ISO week, month and year
are exactly the row's stored columns. -/
theorem time_table_fields_consistent (tz : ℤ) (df : DataFrame)
    (htz1 : -50400 ≤ tz) (htz2 : tz ≤ 50400)
    (hts : ∀ r ∈ df.rows, ∃ t : ℕ,
      getVal r "ts" = .int (t : ℤ) ∧ t ≤ 253402214399999) :
    ∀ row ∈ (time_table tz df).rows, ∃ d : PyDatetime, ∃ s : String,
      getVal row "start_time" = .str s ∧ parseDT s = some d ∧
      getVal row "hour" = .int (d.hour : ℤ) ∧
      getVal row "day" = .int (d.day : ℤ) ∧
      getVal row "week" = .int (isoWeek d.year d.month d.day) ∧
      getVal row "month" = .int (d.month : ℤ) ∧
      getVal row "year" = .int (d.year : ℤ) := by
  intro row hrow
  have hrow2 : row ∈ (time_table_raw tz df).rows :=
    mem_of_mem_dedupBy _ _ _ hrow
  obtain ⟨raug, hraug, hq⟩ := List.mem_map.mp hrow2
  obtain ⟨r1, hr1, _, hdt⟩ :=
    getVal_withColumn_self "datetime"
      (fun r => .str (get_datetime tz (tsOfValue (getVal r "ts"))))
      (log_with_timestamp df) raug hraug
  obtain ⟨r0, hr0, hts1⟩ := getVal_withColumn_other "timestamp"
      (fun r => .str (get_timestamp (tsOfValue (getVal r "ts")))) df r1 hr1 "ts"
    (by decide)
  obtain ⟨t, hv, hb⟩ := hts r0 hr0
  have hvval : getVal raug "datetime" = .str (renderDT (pyDatetime tz t)) := by
    rw [hdt, hts1, hv]
    simp [tsOfValue, get_datetime]
  have hval := pyDatetime_valid tz t htz1 htz2 hb
  have hparse : parseDT (renderDT (pyDatetime tz t)) = some (pyDatetime tz t) :=
    parse_render_roundtrip _ hval.1 hval.2.1 hval.2.2.1 hval.2.2.2.1
      hval.2.2.2.2.1 hval.2.2.2.2.2.1 hval.2.2.2.2.2.2.1
      hval.2.2.2.2.2.2.2.1 hval.2.2.2.2.2.2.2.2.1 hval.2.2.2.2.2.2.2.2.2
  refine ⟨pyDatetime tz t, renderDT (pyDatetime tz t), ?_, hparse, ?_, ?_, ?_, ?_, ?_⟩
  all_goals
    rw [← hq]
    simp [getVal_cons, hvval, sqlField, hparse]

/-- Witness: the concrete time-table row of `exLogRow1` satisfies the
consistency statement, and its `start_time` parses to
2018-11-02 18:38:43.796000 — hour 18, day 2, month 11, year 2018. -/
theorem time_table_fields_consistent_witness :
    (∃ d : PyDatetime, ∃ s : String,
      getVal exTimeRow "start_time" = .str s ∧ parseDT s = some d ∧
      getVal exTimeRow "hour" = .int (d.hour : ℤ) ∧
      getVal exTimeRow "day" = .int (d.day : ℤ) ∧
      getVal exTimeRow "week" = .int (isoWeek d.year d.month d.day) ∧
      getVal exTimeRow "month" = .int (d.month : ℤ) ∧
      getVal exTimeRow "year" = .int (d.year : ℤ)) ∧
    parseDT "2018-11-02 18:38:43.796000" = some ⟨2018, 11, 2, 18, 38, 43, 796000⟩ :=
  ⟨time_table_fields_consistent 0 exLogDf (by decide) (by decide)
    (fun r hr => by
      simp only [exLogDf, List.mem_cons, List.mem_singleton,
        List.not_mem_nil, or_false] at hr
      rcases hr with rfl | rfl
      · exact ⟨1541183923796, by decide, by decide⟩
      · exact ⟨1541183923000, by decide, by decide⟩)
    exTimeRow (by decide),
   by decide⟩

/-- C10: two log records in the same epoch second but with different
millisecond parts produce two different `start_time` strings (the rendering
keeps the sub-second fraction), and the time table keeps exactly one row
for each of the two strings. -/
theorem time_table_distinct_millisecond_rows (tz : ℤ) (df : DataFrame)
    (htz1 : -50400 ≤ tz) (htz2 : tz ≤ 50400)
    (r1 r2 : Row) (t1 t2 : ℕ)
    (hr1 : r1 ∈ df.rows) (hr2 : r2 ∈ df.rows)
    (hv1 : getVal r1 "ts" = .int (t1 : ℤ)) (hv2 : getVal r2 "ts" = .int (t2 : ℤ))
    (hb1 : t1 ≤ 253402214399999) (hb2 : t2 ≤ 253402214399999)
    (hsec : t1 / 1000 = t2 / 1000) (hne : t1 ≠ t2) :
    Value.str (get_datetime tz t1) ≠ Value.str (get_datetime tz t2) ∧
    ((time_table tz df).rows.map (fun r => getVal r "start_time")).count
        (.str (get_datetime tz t1)) = 1 ∧
    ((time_table tz df).rows.map (fun r => getVal r "start_time")).count
        (.str (get_datetime tz t2)) = 1 := by
  obtain ⟨hs1, hu1, hl1, hl1h⟩ := pyTimestampParts_spec t1 hb1
  obtain ⟨hs2, hu2, hl2, hl2h⟩ := pyTimestampParts_spec t2 hb2
  have husne : (pyTimestampParts t1).2 ≠ (pyTimestampParts t2).2 := by omega
  have hmic1 : (pyDatetime tz t1).micros = (pyTimestampParts t1).2 := rfl
  have hmic2 : (pyDatetime tz t2).micros = (pyTimestampParts t2).2 := rfl
  have hval1 := pyDatetime_valid tz t1 htz1 htz2 hb1
  have hval2 := pyDatetime_valid tz t2 htz1 htz2 hb2
  have hparse1 : parseDT (renderDT (pyDatetime tz t1)) = some (pyDatetime tz t1) :=
    parse_render_roundtrip _ hval1.1 hval1.2.1 hval1.2.2.1 hval1.2.2.2.1
      hval1.2.2.2.2.1 hval1.2.2.2.2.2.1 hval1.2.2.2.2.2.2.1
      hval1.2.2.2.2.2.2.2.1 hval1.2.2.2.2.2.2.2.2.1 hval1.2.2.2.2.2.2.2.2.2
  have hparse2 : parseDT (renderDT (pyDatetime tz t2)) = some (pyDatetime tz t2) :=
    parse_render_roundtrip _ hval2.1 hval2.2.1 hval2.2.2.1 hval2.2.2.2.1
      hval2.2.2.2.2.1 hval2.2.2.2.2.2.1 hval2.2.2.2.2.2.2.1
      hval2.2.2.2.2.2.2.2.1 hval2.2.2.2.2.2.2.2.2.1 hval2.2.2.2.2.2.2.2.2.2
  have hrender : renderDT (pyDatetime tz t1) ≠ renderDT (pyDatetime tz t2) := by
    intro heq
    rw [heq, hparse2] at hparse1
    have hd := Option.some.inj hparse1
    exact husne (by rw [← hmic1, ← hmic2, hd])
  have hne2 : Value.str (get_datetime tz t1) ≠ Value.str (get_datetime tz t2) := by
    intro heq
    exact hrender (Value.str.inj heq)
  have hmem : ∀ (r : Row) (t : ℕ), r ∈ df.rows → getVal r "ts" = .int (t : ℤ) →
      Value.str (get_datetime tz t)
        ∈ (time_table_raw tz df).rows.map (fun row => getVal row "start_time") := by
    intro r t hr hv
    rw [time_table_raw_start_times]
    refine List.mem_map.mpr ⟨r, hr, ?_⟩
    rw [hv]
    simp [tsOfValue]
  have hc1 := count_getVal_dropDuplicates "start_time" (time_table_raw tz df)
    (.str (get_datetime tz t1))
  have hc2 := count_getVal_dropDuplicates "start_time" (time_table_raw tz df)
    (.str (get_datetime tz t2))
  rw [if_pos (hmem r1 t1 hr1 hv1)] at hc1
  rw [if_pos (hmem r2 t2 hr2 hv2)] at hc2
  exact ⟨hne2, hc1, hc2⟩

/-- Witness: the two example log records, 796 ms apart within the same
second, yield two distinct `start_time` keys, each with exactly one row. -/
theorem time_table_distinct_millisecond_rows_witness :
    Value.str (get_datetime 0 1541183923796) ≠ Value.str (get_datetime 0 1541183923000) ∧
    ((time_table 0 exLogDf).rows.map (fun r => getVal r "start_time")).count
        (.str (get_datetime 0 1541183923796)) = 1 ∧
    ((time_table 0 exLogDf).rows.map (fun r => getVal r "start_time")).count
        (.str (get_datetime 0 1541183923000)) = 1 :=
  time_table_distinct_millisecond_rows 0 exLogDf (by decide) (by decide)
    exLogRow1 exLogRow2 1541183923796 1541183923000 (by decide) (by decide)
    (by decide) (by decide) (by decide) (by decide) (by decide) (by decide)


end Etl
